import Mathlib

/-!
Verification of the client-side state-synchronization core of a task-list
manager: the reducer and API-action layer of `src/AppProvider.tsx` and the
view-derived helpers (`completionPercentage`, `toggleStatus`) of the task-list
screen component.

The reducer is embedded as a function `reducer : AppState → Action → Option
AppState`; `none` models a JavaScript runtime fault (`TypeError` from calling
`.map`/`.filter` on `undefined`), which the source code can hit in the
`UPDATE_TASK` and `DELETE_TASK` cases when `state.tasks[taskListId]` is absent.
The JavaScript object `state.tasks` is embedded as an association list with
spread-update semantics (`setKey`): replacing the value in place when the key
exists, appending the key otherwise.
-/

namespace TaskTracker

/-- Task status, modelled from the spec: `status (OPEN | CLOSED)`; the
`TaskStatus` enum of `src/domain/TaskStatus` is not among the provided files. -/
inductive TaskStatus where
  | OPEN
  | CLOSED
deriving DecidableEq, Repr

/-- Task priority, modelled from the spec: `priority (ordered category)`; the
domain file defining it is not among the provided files. -/
inductive Priority where
  | LOW
  | MEDIUM
  | HIGH
deriving DecidableEq, Repr

/-- Task list entity, modelled from the spec: `TaskList: identifier (opaque
string, server-assigned), title, optional description`; the file
`src/domain/TaskList` is not among the provided files. -/
structure TaskList where
  id : String
  title : String
  description : Option String
deriving DecidableEq, Repr

/-- Task entity, modelled from the spec: `Task: identifier (opaque string,
server-assigned), parent task-list identifier, title, priority, optional due
date (calendar date), status (OPEN | CLOSED)`; the file `src/domain/Task` is
not among the provided files.  The due date is kept as its serialized
year-month-day string. -/
structure Task where
  id : String
  taskListId : String
  title : String
  priority : Priority
  dueDate : Option String
  status : TaskStatus
deriving DecidableEq, Repr

/-- The `AppState` interface of `AppProvider.tsx`: `taskLists: TaskList[]` and
`tasks: { [taskListId: string]: Task[] }`.  The JavaScript object `tasks` is
embedded as an association list from list id to task array. -/
structure AppState where
  taskLists : List TaskList
  tasks : List (String × List Task)
deriving DecidableEq, Repr

/-- Property access `m[k]` on the embedded JavaScript object: the value at the
first matching key, `none` when the key is absent (JavaScript `undefined`). -/
def getKey (m : List (String × List Task)) (k : String) : Option (List Task) :=
  (m.find? (fun p => p.1 = k)).map Prod.snd

/-- The spread update `{ ...m, [k]: v }` on the embedded JavaScript object:
when the key is present its value is replaced in place (key order preserved),
otherwise the key is appended at the end. -/
def setKey (m : List (String × List Task)) (k : String) (v : List Task) :
    List (String × List Task) :=
  if m.any (fun p => p.1 = k) then
    m.map (fun p => if p.1 = k then (k, v) else p)
  else
    m ++ [(k, v)]

/-- The `Action` union type of `AppProvider.tsx`, one constructor per action
type, with the payload shapes of the source. -/
inductive Action where
  | FETCH_TASKLISTS (payload : List TaskList)
  | GET_TASKLIST (payload : TaskList)
  | CREATE_TASKLIST (payload : TaskList)
  | UPDATE_TASKLIST (payload : TaskList)
  | DELETE_TASKLIST (payload : String)
  | FETCH_TASKS (taskListId : String) (tasks : List Task)
  | CREATE_TASK (taskListId : String) (task : Task)
  | GET_TASK (taskListId : String) (task : Task)
  | UPDATE_TASK (taskListId : String) (taskId : String) (task : Task)
  | DELETE_TASK (taskListId : String) (taskId : String)
deriving DecidableEq, Repr

/-- The reducer of `AppProvider.tsx` (lines 46-135).  `none` models the
runtime fault (`TypeError` on `undefined`) that the `UPDATE_TASK` and
`DELETE_TASK` cases raise when `state.tasks[taskListId]` is absent; every
other case is total.  `CREATE_TASK` and `GET_TASK` default an absent slice to
`[]` (the source's `state.tasks[id] || []`). -/
def reducer (state : AppState) (action : Action) : Option AppState :=
  match action with
  | .FETCH_TASKLISTS payload =>
      some { state with taskLists := payload }
  | .GET_TASKLIST payload =>
      let updated :=
        if state.taskLists.any (fun wl => wl.id = payload.id) then
          state.taskLists.map (fun wl => if wl.id = payload.id then payload else wl)
        else
          state.taskLists ++ [payload]
      some { state with taskLists := updated }
  | .CREATE_TASKLIST payload =>
      some { state with taskLists := state.taskLists ++ [payload] }
  | .UPDATE_TASKLIST payload =>
      let updated := state.taskLists.map (fun wl => if wl.id = payload.id then payload else wl)
      some { state with taskLists := updated }
  | .DELETE_TASKLIST payload =>
      let updated := state.taskLists.filter (fun wl => wl.id ≠ payload)
      some { state with taskLists := updated }
  | .FETCH_TASKS taskListId tasks =>
      some { state with tasks := setKey state.tasks taskListId tasks }
  | .CREATE_TASK taskListId task =>
      let updated := (getKey state.tasks taskListId).getD [] ++ [task]
      some { state with tasks := setKey state.tasks taskListId updated }
  | .GET_TASK taskListId task =>
      let existingTasks := (getKey state.tasks taskListId).getD []
      let taskExists := existingTasks.any (fun t => t.id = task.id)
      let updatedTasks :=
        if taskExists then
          existingTasks.map (fun t => if t.id = task.id then task else t)
        else
          existingTasks ++ [task]
      some { state with tasks := setKey state.tasks taskListId updatedTasks }
  | .UPDATE_TASK taskListId taskId task =>
      match getKey state.tasks taskListId with
      | none => none
      | some ts =>
          let updated := ts.map (fun t => if t.id = taskId then task else t)
          some { state with tasks := setKey state.tasks taskListId updated }
  | .DELETE_TASK taskListId taskId =>
      match getKey state.tasks taskListId with
      | none => none
      | some ts =>
          let updated := ts.filter (fun t => t.id ≠ taskId)
          some { state with tasks := setKey state.tasks taskListId updated }

/-- The `initialState` of `AppProvider.tsx`: empty task-list array, empty
tasks object. -/
def initialState : AppState :=
  { taskLists := [], tasks := [] }

/-- Sequential application of a list of actions, stopping with `none` as soon
as one application faults. -/
def applyAll (state : AppState) (actions : List Action) : Option AppState :=
  match actions with
  | [] => some state
  | a :: rest => (reducer state a).bind (fun s1 => applyAll s1 rest)

/-- Failure taxonomy of the Remote Store Client: transport errors and non-2xx
server responses (status code and optional body), as logged by the `catch`
blocks of `AppProvider.tsx`. -/
inductive ApiError where
  | transport (message : String)
  | server (status : Nat) (body : Option String)
deriving DecidableEq, Repr

/-- Observable outcome of one Remote Store Client call: the value returned or
re-raised to the caller, the state after any dispatch (`none` records a
reducer fault during dispatch, never a silent drop), and whether the `catch`
block logged an error. -/
structure ApiOutcome where
  result : Except ApiError Unit
  state : Option AppState
  errorLogged : Bool
deriving Repr

/-- `api.fetchTaskLists` of `AppProvider.tsx`: on 2xx dispatches
`FETCH_TASKLISTS` with the response body; on failure logs and re-throws
without dispatching. -/
def apiFetchTaskLists (http : Except ApiError (List TaskList)) (state : AppState) : ApiOutcome :=
  match http with
  | .ok data => { result := .ok (), state := reducer state (.FETCH_TASKLISTS data), errorLogged := false }
  | .error e => { result := .error e, state := some state, errorLogged := true }

/-- `api.getTaskList` of `AppProvider.tsx`: on 2xx dispatches `GET_TASKLIST`
with the response body; on failure logs and re-throws without dispatching. -/
def apiGetTaskList (http : Except ApiError TaskList) (state : AppState) : ApiOutcome :=
  match http with
  | .ok data => { result := .ok (), state := reducer state (.GET_TASKLIST data), errorLogged := false }
  | .error e => { result := .error e, state := some state, errorLogged := true }

/-- `api.createTaskList` of `AppProvider.tsx`: on 2xx dispatches
`CREATE_TASKLIST` with the response body; on failure logs and re-throws
without dispatching. -/
def apiCreateTaskList (http : Except ApiError TaskList) (state : AppState) : ApiOutcome :=
  match http with
  | .ok data => { result := .ok (), state := reducer state (.CREATE_TASKLIST data), errorLogged := false }
  | .error e => { result := .error e, state := some state, errorLogged := true }

/-- `api.updateTaskList` of `AppProvider.tsx`: on 2xx dispatches
`UPDATE_TASKLIST` with the response body; on failure logs and re-throws
without dispatching. -/
def apiUpdateTaskList (http : Except ApiError TaskList) (state : AppState) : ApiOutcome :=
  match http with
  | .ok data => { result := .ok (), state := reducer state (.UPDATE_TASKLIST data), errorLogged := false }
  | .error e => { result := .error e, state := some state, errorLogged := true }

/-- `api.deleteTaskList` of `AppProvider.tsx`: on 2xx dispatches
`DELETE_TASKLIST` with the route id; on failure logs and re-throws without
dispatching. -/
def apiDeleteTaskList (id : String) (http : Except ApiError Unit) (state : AppState) : ApiOutcome :=
  match http with
  | .ok _ => { result := .ok (), state := reducer state (.DELETE_TASKLIST id), errorLogged := false }
  | .error e => { result := .error e, state := some state, errorLogged := true }

/-- `api.fetchTasks` of `AppProvider.tsx`: on 2xx dispatches `FETCH_TASKS`
with the response body; on failure logs and re-throws without dispatching. -/
def apiFetchTasks (taskListId : String) (http : Except ApiError (List Task)) (state : AppState) : ApiOutcome :=
  match http with
  | .ok data => { result := .ok (), state := reducer state (.FETCH_TASKS taskListId data), errorLogged := false }
  | .error e => { result := .error e, state := some state, errorLogged := true }

/-- `api.createTask` of `AppProvider.tsx`: on 2xx dispatches `CREATE_TASK`
with the response body; on failure logs and re-throws without dispatching. -/
def apiCreateTask (taskListId : String) (http : Except ApiError Task) (state : AppState) : ApiOutcome :=
  match http with
  | .ok data => { result := .ok (), state := reducer state (.CREATE_TASK taskListId data), errorLogged := false }
  | .error e => { result := .error e, state := some state, errorLogged := true }

/-- `api.getTask` of `AppProvider.tsx`: on 2xx dispatches `GET_TASK` with the
response body; on failure logs and re-throws without dispatching. -/
def apiGetTask (taskListId : String) (http : Except ApiError Task) (state : AppState) : ApiOutcome :=
  match http with
  | .ok data => { result := .ok (), state := reducer state (.GET_TASK taskListId data), errorLogged := false }
  | .error e => { result := .error e, state := some state, errorLogged := true }

/-- `api.updateTask` of `AppProvider.tsx`: on 2xx dispatches `UPDATE_TASK`
with the route ids and the response body; on failure logs and re-throws
without dispatching. -/
def apiUpdateTask (taskListId taskId : String) (http : Except ApiError Task) (state : AppState) : ApiOutcome :=
  match http with
  | .ok data => { result := .ok (), state := reducer state (.UPDATE_TASK taskListId taskId data), errorLogged := false }
  | .error e => { result := .error e, state := some state, errorLogged := true }

/-- `api.deleteTask` of `AppProvider.tsx` (lines 343-358): on 2xx dispatches
`DELETE_TASK` with the route ids; on failure logs and re-throws without
dispatching. -/
def apiDeleteTask (taskListId taskId : String) (http : Except ApiError Unit) (state : AppState) : ApiOutcome :=
  match http with
  | .ok _ => { result := .ok (), state := reducer state (.DELETE_TASK taskListId taskId), errorLogged := false }
  | .error e => { result := .error e, state := some state, errorLogged := true }

/-- The `completionPercentage` memo of the task-list screen (lines 62-71 of
the screen component): when the route's `listId` is truthy (JavaScript: a
defined, non-empty string) and `state.tasks[listId]` is present, the closed
count over the total count times 100 (0 for an empty slice); otherwise 0.
Division is exact rational division. -/
def completionPercentage (listId : Option String) (state : AppState) : ℚ :=
  match listId with
  | none => 0
  | some lid =>
      if lid = "" then 0
      else
        match getKey state.tasks lid with
        | none => 0
        | some tasks =>
            let closeTaskCount := (tasks.filter (fun t => t.status = TaskStatus.CLOSED)).length
            if tasks.length > 0 then ((closeTaskCount : ℚ) / (tasks.length : ℚ)) * 100 else 0

/-- The `toggleStatus` handler of the task-list screen (lines 73-86): with a
falsy `listId` it only logs and returns (`none`); otherwise it flips the
task's status on a copy of the task and calls `api.updateTask`, whose 2xx
path dispatches the returned `UPDATE_TASK` action. -/
def toggleStatus (listId : Option String) (task : Task) : Option Action :=
  match listId with
  | none => none
  | some lid =>
      if lid = "" then none
      else
        let newStatus := if task.status = TaskStatus.CLOSED then TaskStatus.OPEN else TaskStatus.CLOSED
        some (Action.UPDATE_TASK lid task.id { task with status := newStatus })

/-- Whether a dispatched action is the UpsertTask command of the spec's
command table, i.e. the `GET_TASK` action (spec §4.1 maps UpsertTask to
replace-by-id-or-append, the `GET_TASK` reducer case). -/
def isUpsertTaskAction : Option Action → Bool
  | some (Action.GET_TASK _ _) => true
  | _ => false

/-- The four task-slice commands of the spec's command table restricted to a
single list id: ReplaceTasks (`FETCH_TASKS`), AppendTask (`CREATE_TASK`),
UpsertTask (`GET_TASK`) and RemoveTask (`DELETE_TASK`). -/
inductive TaskCmd where
  | replaceTasks (tasks : List Task)
  | appendTask (task : Task)
  | upsertTask (task : Task)
  | removeTask (taskId : String)
deriving DecidableEq, Repr

/-- The reducer action a task-slice command denotes on a given list id. -/
def TaskCmd.toAction (listId : String) : TaskCmd → Action
  | .replaceTasks ts => .FETCH_TASKS listId ts
  | .appendTask t => .CREATE_TASK listId t
  | .upsertTask t => .GET_TASK listId t
  | .removeTask tid => .DELETE_TASK listId tid

/-- The cached task slice for a list id, read as the empty sequence when the
key is absent. -/
def slice (state : AppState) (listId : String) : List Task :=
  (getKey state.tasks listId).getD []

/-- First task with the given id in a task sequence. -/
def findById (ts : List Task) (tid : String) : Option Task :=
  ts.find? (fun t => t.id = tid)

/-- What a single task-slice command determines about the task with id `tid`:
`none` when the command does not reference `tid`; `some none` when it removes
it; `some (some t)` when it sets it to `t`.  A ReplaceTasks command determines
every id (its payload entry, or removal). -/
def refOf (c : TaskCmd) (tid : String) : Option (Option Task) :=
  match c with
  | .replaceTasks ts => some (findById ts tid)
  | .appendTask t => if t.id = tid then some (some t) else none
  | .upsertTask t => if t.id = tid then some (some t) else none
  | .removeTask tid2 => if tid2 = tid then some none else none

/-- What the last command of a sequence that references `tid` determines
about it (later commands take precedence). -/
def lastRef (cmds : List TaskCmd) (tid : String) : Option (Option Task) :=
  match cmds with
  | [] => none
  | c :: rest => (lastRef rest tid).orElse (fun _ => refOf c tid)

/-- Discipline of a single task-slice command against the current state:
ReplaceTasks payload ids are pairwise distinct, an AppendTask payload id is
fresh for the current slice, and RemoveTask requires the slice to be present
(else the reducer faults).  UpsertTask is unconditionally disciplined. -/
def goodStep (state : AppState) (listId : String) : TaskCmd → Bool
  | .replaceTasks ts => decide ((ts.map Task.id).Nodup)
  | .appendTask t => decide (t.id ∉ (slice state listId).map Task.id)
  | .upsertTask _ => true
  | .removeTask _ => (getKey state.tasks listId).isSome

/-- Discipline of a command sequence: every step is disciplined in the state
reached by the preceding steps (which, as proved below, never fault). -/
def goodSeq (state : AppState) (listId : String) : List TaskCmd → Bool
  | [] => true
  | c :: rest =>
      goodStep state listId c &&
        (match reducer state (c.toAction listId) with
         | some s1 => goodSeq s1 listId rest
         | none => false)

/-- A concrete sample task for scenario instances. -/
def sampleTask (i : String) (st : TaskStatus) : Task :=
  { id := i, taskListId := "L1", title := "Sample", priority := Priority.MEDIUM,
    dueDate := none, status := st }

/-- A concrete sample task list for scenario instances. -/
def sampleList : TaskList :=
  { id := "L1", title := "Home", description := none }

/-- A concrete second task list for scenario instances. -/
def otherList : TaskList :=
  { id := "L2", title := "Work", description := none }

/-- A concrete task list whose id matches nothing in the sample states. -/
def ghostList : TaskList :=
  { id := "L9", title := "Ghost", description := none }

/-- Sample state: list `L1` known, its slice holding one open task `T1`. -/
def stateL1T1 : AppState :=
  { taskLists := [sampleList], tasks := [("L1", [sampleTask "T1" TaskStatus.OPEN])] }

/-- Sample state: lists `L1` and `L2` known, no task slice fetched. -/
def stateTwoLists : AppState :=
  { taskLists := [sampleList, otherList], tasks := [] }

/-- Sample state: only list `L2` known, no task slice fetched. -/
def stateOnlyL2 : AppState :=
  { taskLists := [otherList], tasks := [] }

/-- Sample state: only list `L1` known, no task slice fetched. -/
def stateOnlyL1 : AppState :=
  { taskLists := [sampleList], tasks := [] }

/-- Sample state: no task list known, slice of `L1` cached with one open task. -/
def stateSliceT1 : AppState :=
  { taskLists := [], tasks := [("L1", [sampleTask "T1" TaskStatus.OPEN])] }

/-- Sample state: no task list known, slice of `L1` cached and empty. -/
def stateSliceEmpty : AppState :=
  { taskLists := [], tasks := [("L1", [])] }

/-- Per the spec scenario: one open task `T1` and one closed task `T2`. -/
def scenarioTasks : List Task :=
  [sampleTask "T1" TaskStatus.OPEN, sampleTask "T2" TaskStatus.CLOSED]

/-- The scenario tasks in the opposite order. -/
def scenarioTasksSwapped : List Task :=
  [sampleTask "T2" TaskStatus.CLOSED, sampleTask "T1" TaskStatus.OPEN]

/-- Sample state: list `L1` with the scenario slice. -/
def stateScenario : AppState :=
  { taskLists := [sampleList], tasks := [("L1", scenarioTasks)] }

/-- Sample state: list `L1` with the scenario slice reordered. -/
def stateScenarioSwapped : AppState :=
  { taskLists := [sampleList], tasks := [("L1", scenarioTasksSwapped)] }

/-- Sample state: list `L1` whose only cached task is closed. -/
def stateL1T1Closed : AppState :=
  { taskLists := [sampleList], tasks := [("L1", [sampleTask "T1" TaskStatus.CLOSED])] }

/-- Sample state reached by appending the same task twice to an absent slice. -/
def stateDupT1 : AppState :=
  { taskLists := [],
    tasks := [("L1", [sampleTask "T1" TaskStatus.OPEN, sampleTask "T1" TaskStatus.OPEN])] }

/-- A disciplined sample command sequence: replace, upsert, append, remove. -/
def c2SampleCmds : List TaskCmd :=
  [TaskCmd.replaceTasks [sampleTask "T1" TaskStatus.OPEN, sampleTask "T2" TaskStatus.OPEN],
   TaskCmd.upsertTask (sampleTask "T1" TaskStatus.CLOSED),
   TaskCmd.appendTask (sampleTask "T3" TaskStatus.OPEN),
   TaskCmd.removeTask "T2"]

/-- The effect of one task-slice command on the current slice, as the reducer
computes it: replace, append, replace-by-id-or-append, filter. -/
def applyCmdSlice (cur : List Task) : TaskCmd → List Task
  | .replaceTasks ts => ts
  | .appendTask t => cur ++ [t]
  | .upsertTask t =>
      if cur.any (fun x => x.id = t.id) then cur.map (fun x => if x.id = t.id then t else x)
      else cur ++ [t]
  | .removeTask tid => cur.filter (fun t => t.id ≠ tid)

/-- Slice-level command discipline (what `goodStep` asserts about the current
slice): distinct ReplaceTasks payload ids and a fresh AppendTask id. -/
def goodStepSlice (cur : List Task) : TaskCmd → Bool
  | .replaceTasks ts => decide ((ts.map Task.id).Nodup)
  | .appendTask t => decide (t.id ∉ cur.map Task.id)
  | .upsertTask _ => true
  | .removeTask _ => true

/-! ### Lemmas about the embedded JavaScript object -/

theorem find?_map_replace (m : List (String × List Task)) (k : String) (v : List Task)
    (h : m.any (fun p => p.1 = k) = true) :
    (m.map (fun p => if p.1 = k then (k, v) else p)).find? (fun p => p.1 = k) = some (k, v) := by
  induction m with
  | nil => simp at h
  | cons p rest ih =>
      by_cases hp : p.1 = k
      · simp only [List.map_cons, if_pos hp]
        exact List.find?_cons_of_pos _ (by simp)
      · simp only [List.map_cons, if_neg hp]
        rw [List.find?_cons_of_neg _ (by simp [hp])]
        apply ih
        simpa [hp] using h

theorem find?_map_replace_ne (m : List (String × List Task)) (k k' : String) (v : List Task)
    (h : k' ≠ k) :
    (m.map (fun p => if p.1 = k then (k, v) else p)).find? (fun p => p.1 = k') =
      m.find? (fun p => p.1 = k') := by
  induction m with
  | nil => rfl
  | cons p rest ih =>
      by_cases hp : p.1 = k
      · simp only [List.map_cons, if_pos hp]
        rw [List.find?_cons_of_neg _ (by simp [Ne.symm h]),
          List.find?_cons_of_neg _ (by simp [hp, Ne.symm h]), ih]
      · simp only [List.map_cons, if_neg hp]
        by_cases hp' : p.1 = k'
        · rw [List.find?_cons_of_pos _ (by simp [hp']), List.find?_cons_of_pos _ (by simp [hp'])]
        · rw [List.find?_cons_of_neg _ (by simp [hp']), List.find?_cons_of_neg _ (by simp [hp']),
            ih]

/-- Reading back the key just written by a spread update yields the written
value. -/
theorem getKey_setKey_self (m : List (String × List Task)) (k : String) (v : List Task) :
    getKey (setKey m k v) k = some v := by
  unfold getKey setKey
  by_cases h : m.any (fun p => p.1 = k) = true
  · rw [if_pos h, find?_map_replace m k v h]
    rfl
  · rw [if_neg h, List.find?_append]
    have hnone : m.find? (fun p => decide (p.1 = k)) = none := by
      rw [List.find?_eq_none]
      intro x hx
      simp only [decide_eq_true_eq]
      intro hxk
      exact h (List.any_eq_true.mpr ⟨x, hx, by simp [hxk]⟩)
    simp [hnone]

/-- A spread update leaves every other key unchanged. -/
theorem getKey_setKey_ne (m : List (String × List Task)) (k k' : String) (v : List Task)
    (h : k' ≠ k) :
    getKey (setKey m k v) k' = getKey m k' := by
  unfold getKey setKey
  by_cases hm : m.any (fun p => p.1 = k) = true
  · rw [if_pos hm, find?_map_replace_ne m k k' v h]
  · rw [if_neg hm, List.find?_append]
    cases hfind : m.find? (fun p => decide (p.1 = k')) with
    | some p => simp [hfind]
    | none => simp [hfind, Ne.symm h]

/-- A spread update never deletes a key. -/
theorem getKey_setKey_isSome (m : List (String × List Task)) (k k' : String) (v : List Task)
    (h : (getKey m k').isSome = true) :
    (getKey (setKey m k v) k').isSome = true := by
  by_cases hk : k' = k
  · subst hk
    rw [getKey_setKey_self]
    rfl
  · rw [getKey_setKey_ne m k k' v hk]
    exact h

/-! ### Lemmas about task-slice operations -/

theorem findById_append (ts1 ts2 : List Task) (tid : String) :
    findById (ts1 ++ ts2) tid = (findById ts1 tid).or (findById ts2 tid) := by
  unfold findById
  exact List.find?_append

theorem findById_eq_none (ts : List Task) (tid : String) (h : tid ∉ ts.map Task.id) :
    findById ts tid = none := by
  unfold findById
  rw [List.find?_eq_none]
  intro t ht
  simp only [decide_eq_true_eq]
  intro htid
  exact h (List.mem_map.mpr ⟨t, ht, htid⟩)

theorem findById_singleton_self (t : Task) : findById [t] t.id = some t := by
  unfold findById
  exact List.find?_cons_of_pos _ (by simp)

theorem findById_replace_self (ts : List Task) (u : Task)
    (h : ts.any (fun t => t.id = u.id) = true) :
    findById (ts.map (fun t => if t.id = u.id then u else t)) u.id = some u := by
  induction ts with
  | nil => simp at h
  | cons t rest ih =>
      by_cases ht : t.id = u.id
      · simp only [List.map_cons, if_pos ht]
        exact List.find?_cons_of_pos _ (by simp)
      · simp only [List.map_cons, if_neg ht]
        rw [findById, List.find?_cons_of_neg _ (by simp [ht])]
        have := ih (by simpa [ht] using h)
        exact this

theorem findById_replace_ne (ts : List Task) (u : Task) (tid : String) (h : tid ≠ u.id) :
    findById (ts.map (fun t => if t.id = u.id then u else t)) tid = findById ts tid := by
  induction ts with
  | nil => rfl
  | cons t rest ih =>
      by_cases ht : t.id = u.id
      · simp only [List.map_cons, if_pos ht]
        rw [findById, List.find?_cons_of_neg _ (by simp [Ne.symm h]), findById,
          List.find?_cons_of_neg _ (by simp [ht, Ne.symm h])]
        exact ih
      · simp only [List.map_cons, if_neg ht]
        by_cases ht' : t.id = tid
        · rw [findById, List.find?_cons_of_pos _ (by simp [ht']), findById,
            List.find?_cons_of_pos _ (by simp [ht'])]
        · rw [findById, List.find?_cons_of_neg _ (by simp [ht']), findById,
            List.find?_cons_of_neg _ (by simp [ht'])]
          exact ih

theorem ids_replace (ts : List Task) (u : Task) :
    (ts.map (fun t => if t.id = u.id then u else t)).map Task.id = ts.map Task.id := by
  rw [List.map_map]
  apply List.map_congr_left
  intro t _
  by_cases ht : t.id = u.id
  · simp [Function.comp, ht]
  · simp [Function.comp, ht]

theorem findById_filter_self (ts : List Task) (tid : String) :
    findById (ts.filter (fun t => t.id ≠ tid)) tid = none := by
  unfold findById
  rw [List.find?_eq_none]
  intro t ht
  have := List.of_mem_filter ht
  simp only [ne_eq, decide_not, Bool.not_eq_true', decide_eq_false_iff_not] at this
  simp [this]

theorem findById_filter_ne (ts : List Task) (tid tid2 : String) (h : tid ≠ tid2) :
    findById (ts.filter (fun t => t.id ≠ tid2)) tid = findById ts tid := by
  induction ts with
  | nil => rfl
  | cons t rest ih =>
      by_cases ht : t.id = tid2
      · rw [List.filter_cons_of_neg (by simp [ht])]
        have hr : findById (t :: rest) tid = findById rest tid := by
          unfold findById
          exact List.find?_cons_of_neg _ (by simp [ht, Ne.symm h])
        rw [hr]
        exact ih
      · rw [List.filter_cons_of_pos (by simp [ht])]
        by_cases ht' : t.id = tid
        · rw [findById, List.find?_cons_of_pos _ (by simp [ht']), findById,
            List.find?_cons_of_pos _ (by simp [ht'])]
        · rw [findById, List.find?_cons_of_neg _ (by simp [ht']), findById,
            List.find?_cons_of_neg _ (by simp [ht'])]
          exact ih

theorem ids_filter_nodup (ts : List Task) (p : Task → Bool)
    (h : (ts.map Task.id).Nodup) : ((ts.filter p).map Task.id).Nodup := by
  exact List.Nodup.sublist (List.Sublist.map Task.id (List.filter_sublist ts)) h

theorem ids_append_nodup (ts : List Task) (t : Task)
    (h : (ts.map Task.id).Nodup) (hf : t.id ∉ ts.map Task.id) :
    ((ts ++ [t]).map Task.id).Nodup := by
  rw [List.map_append, List.nodup_append]
  exact ⟨h, List.nodup_singleton _, List.disjoint_singleton.mpr (by simpa using hf)⟩

/-! ### The effect of a task-slice command on its list's slice -/

theorem goodStep_goodStepSlice (s : AppState) (lid : String) (c : TaskCmd)
    (h : goodStep s lid c = true) : goodStepSlice (slice s lid) c = true := by
  cases c with
  | replaceTasks ts => exact h
  | appendTask t => exact h
  | upsertTask t => rfl
  | removeTask tid => rfl

/-- Under step discipline the reducer does not fault, and the new slice is the
command's slice-level effect. -/
theorem reducer_cmd_slice (s : AppState) (lid : String) (c : TaskCmd)
    (hc : goodStep s lid c = true) :
    ∃ s1, reducer s (c.toAction lid) = some s1 ∧
      slice s1 lid = applyCmdSlice (slice s lid) c := by
  cases c with
  | replaceTasks ts =>
      refine ⟨_, rfl, ?_⟩
      simp only [slice, reducer, getKey_setKey_self, Option.getD_some, applyCmdSlice]
  | appendTask t =>
      refine ⟨_, rfl, ?_⟩
      simp only [slice, reducer, getKey_setKey_self, Option.getD_some, applyCmdSlice]
  | upsertTask t =>
      refine ⟨_, rfl, ?_⟩
      simp only [slice, reducer, getKey_setKey_self, Option.getD_some, applyCmdSlice]
  | removeTask tid =>
      cases hts : getKey s.tasks lid with
      | none =>
          simp only [goodStep, hts, Option.isSome_none] at hc
          exact absurd hc (by simp)
      | some ts =>
          refine ⟨{ s with tasks := setKey s.tasks lid (ts.filter (fun t => t.id ≠ tid)) }, ?_, ?_⟩
          · simp only [TaskCmd.toAction, reducer, hts]
          · simp only [slice, getKey_setKey_self, Option.getD_some, applyCmdSlice, hts,
              Option.getD_some]

/-- The slice after one disciplined command, looked up by task id: the
command's own determination when it references the id, the previous lookup
otherwise. -/
theorem applyCmdSlice_findById (cur : List Task) (c : TaskCmd) (tid : String)
    (hg : goodStepSlice cur c = true) :
    findById (applyCmdSlice cur c) tid = (refOf c tid).getD (findById cur tid) := by
  cases c with
  | replaceTasks ts => rfl
  | appendTask t =>
      have hfresh : t.id ∉ cur.map Task.id := by
        simpa [goodStepSlice] using hg
      by_cases ht : t.id = tid
      · subst ht
        simp only [applyCmdSlice, refOf, if_pos rfl, Option.getD_some]
        rw [findById_append, findById_eq_none cur t.id hfresh, findById_singleton_self]
        rfl
      · simp only [applyCmdSlice, refOf, if_neg ht, Option.getD_none]
        rw [findById_append]
        have h1 : findById [t] tid = none := by
          unfold findById
          rw [List.find?_eq_none]
          intro x hx
          simp only [List.mem_singleton] at hx
          simp [hx, ht]
        rw [h1]
        cases findById cur tid <;> rfl
  | upsertTask t =>
      by_cases hany : cur.any (fun x => x.id = t.id) = true
      · by_cases ht : t.id = tid
        · subst ht
          simp only [applyCmdSlice, if_pos hany, refOf, if_pos rfl, Option.getD_some]
          exact findById_replace_self cur t hany
        · simp only [applyCmdSlice, if_pos hany, refOf, if_neg ht, Option.getD_none]
          exact findById_replace_ne cur t tid (fun hh => ht hh.symm)
      · have hfresh : t.id ∉ cur.map Task.id := by
          intro hmem
          apply hany
          obtain ⟨x, hx, hxid⟩ := List.mem_map.mp hmem
          exact List.any_eq_true.mpr ⟨x, hx, by simp [hxid]⟩
        by_cases ht : t.id = tid
        · subst ht
          simp only [applyCmdSlice, if_neg hany, refOf, if_pos rfl, Option.getD_some]
          rw [findById_append, findById_eq_none cur t.id hfresh, findById_singleton_self]
          rfl
        · simp only [applyCmdSlice, if_neg hany, refOf, if_neg ht, Option.getD_none]
          rw [findById_append]
          have h1 : findById [t] tid = none := by
            unfold findById
            rw [List.find?_eq_none]
            intro x hx
            simp only [List.mem_singleton] at hx
            simp [hx, ht]
          rw [h1]
          cases findById cur tid <;> rfl
  | removeTask tid2 =>
      by_cases ht : tid2 = tid
      · subst ht
        simp only [applyCmdSlice, refOf, if_pos rfl, Option.getD_some]
        exact findById_filter_self cur tid2
      · simp only [applyCmdSlice, refOf, if_neg ht, Option.getD_none]
        exact findById_filter_ne cur tid tid2 (fun hh => ht hh.symm)

/-- One disciplined command preserves distinctness of the slice's task ids. -/
theorem applyCmdSlice_nodup (cur : List Task) (c : TaskCmd)
    (hg : goodStepSlice cur c = true) (hn : (cur.map Task.id).Nodup) :
    ((applyCmdSlice cur c).map Task.id).Nodup := by
  cases c with
  | replaceTasks ts => simpa [goodStepSlice] using hg
  | appendTask t =>
      have hfresh : t.id ∉ cur.map Task.id := by simpa [goodStepSlice] using hg
      exact ids_append_nodup cur t hn hfresh
  | upsertTask t =>
      by_cases hany : cur.any (fun x => x.id = t.id) = true
      · simp only [applyCmdSlice, if_pos hany]
        rw [ids_replace]
        exact hn
      · have hfresh : t.id ∉ cur.map Task.id := by
          intro hmem
          apply hany
          obtain ⟨x, hx, hxid⟩ := List.mem_map.mp hmem
          exact List.any_eq_true.mpr ⟨x, hx, by simp [hxid]⟩
        simp only [applyCmdSlice, if_neg hany]
        exact ids_append_nodup cur t hn hfresh
  | removeTask tid => exact ids_filter_nodup cur _ hn

theorem getD_orElse (a b : Option (Option Task)) (d : Option Task) :
    (a.orElse (fun _ => b)).getD d = a.getD (b.getD d) := by
  cases a <;> rfl

/-- A disciplined command sequence never faults, preserves distinctness of the
slice's task ids, and its final slice looks up each task id to what the last
command referencing that id determined (falling back to the initial slice for
ids no command referenced). -/
theorem goodSeq_sound (cmds : List TaskCmd) (s : AppState) (lid : String)
    (hg : goodSeq s lid cmds = true) :
    ∃ s', applyAll s (cmds.map (TaskCmd.toAction lid)) = some s' ∧
      (∀ tid, findById (slice s' lid) tid =
        (lastRef cmds tid).getD (findById (slice s lid) tid)) ∧
      (((slice s lid).map Task.id).Nodup → ((slice s' lid).map Task.id).Nodup) := by
  induction cmds generalizing s with
  | nil =>
      exact ⟨s, rfl, fun tid => rfl, fun h => h⟩
  | cons c rest ih =>
      simp only [goodSeq, Bool.and_eq_true] at hg
      obtain ⟨hstep, hrest⟩ := hg
      obtain ⟨s1, hred, hslice⟩ := reducer_cmd_slice s lid c hstep
      rw [hred] at hrest
      obtain ⟨s', happ, hfind, hnodup⟩ := ih s1 hrest
      refine ⟨s', ?_, ?_, ?_⟩
      · simp only [List.map_cons, applyAll, hred, Option.bind_some]
        exact happ
      · intro tid
        rw [hfind tid, hslice,
          applyCmdSlice_findById (slice s lid) c tid (goodStep_goodStepSlice s lid c hstep),
          lastRef, getD_orElse]
      · intro hn
        apply hnodup
        rw [hslice]
        exact applyCmdSlice_nodup (slice s lid) c (goodStep_goodStepSlice s lid c hstep) hn

/-- Shape of the `tasks` mapping after any non-faulting reducer step: either
untouched, or spread-updated at a single key. -/
theorem reducer_tasks_shape (s : AppState) (a : Action) (s1 : AppState)
    (h : reducer s a = some s1) :
    s1.tasks = s.tasks ∨ ∃ k v, s1.tasks = setKey s.tasks k v := by
  cases a with
  | FETCH_TASKLISTS p =>
      simp only [reducer, Option.some.injEq] at h
      exact Or.inl (by rw [← h])
  | GET_TASKLIST p =>
      simp only [reducer, Option.some.injEq] at h
      exact Or.inl (by rw [← h])
  | CREATE_TASKLIST p =>
      simp only [reducer, Option.some.injEq] at h
      exact Or.inl (by rw [← h])
  | UPDATE_TASKLIST p =>
      simp only [reducer, Option.some.injEq] at h
      exact Or.inl (by rw [← h])
  | DELETE_TASKLIST p =>
      simp only [reducer, Option.some.injEq] at h
      exact Or.inl (by rw [← h])
  | FETCH_TASKS lid ts =>
      simp only [reducer, Option.some.injEq] at h
      exact Or.inr ⟨lid, ts, by rw [← h]⟩
  | CREATE_TASK lid t =>
      simp only [reducer, Option.some.injEq] at h
      exact Or.inr ⟨lid, _, by rw [← h]⟩
  | GET_TASK lid t =>
      simp only [reducer, Option.some.injEq] at h
      exact Or.inr ⟨lid, _, by rw [← h]⟩
  | UPDATE_TASK lid tid t =>
      cases hts : getKey s.tasks lid with
      | none =>
          simp only [reducer, hts] at h
          exact Option.noConfusion h
      | some ts =>
          simp only [reducer, hts, Option.some.injEq] at h
          exact Or.inr ⟨lid, _, by rw [← h]⟩
  | DELETE_TASK lid tid =>
      cases hts : getKey s.tasks lid with
      | none =>
          simp only [reducer, hts] at h
          exact Option.noConfusion h
      | some ts =>
          simp only [reducer, hts, Option.some.injEq] at h
          exact Or.inr ⟨lid, _, by rw [← h]⟩

/-! ### Claims -/

/-- C1: for every Remote Store Client operation (in particular `deleteTask`),
a failed HTTP call (transport error or non-2xx status) dispatches no command:
the state, including every `tasks[listId]` slice, is exactly what it was
before the call, the failure is re-raised to the caller, and the error is
logged. -/
theorem C1_api_failure_no_dispatch (e : ApiError) (s : AppState)
    (id lid tid : String) :
    apiFetchTaskLists (.error e) s = { result := .error e, state := some s, errorLogged := true } ∧
    apiGetTaskList (.error e) s = { result := .error e, state := some s, errorLogged := true } ∧
    apiCreateTaskList (.error e) s = { result := .error e, state := some s, errorLogged := true } ∧
    apiUpdateTaskList (.error e) s = { result := .error e, state := some s, errorLogged := true } ∧
    apiDeleteTaskList id (.error e) s = { result := .error e, state := some s, errorLogged := true } ∧
    apiFetchTasks lid (.error e) s = { result := .error e, state := some s, errorLogged := true } ∧
    apiCreateTask lid (.error e) s = { result := .error e, state := some s, errorLogged := true } ∧
    apiGetTask lid (.error e) s = { result := .error e, state := some s, errorLogged := true } ∧
    apiUpdateTask lid tid (.error e) s = { result := .error e, state := some s, errorLogged := true } ∧
    apiDeleteTask lid tid (.error e) s = { result := .error e, state := some s, errorLogged := true } ∧
    (apiDeleteTask lid tid (.error e) s).state.map (fun s1 => getKey s1.tasks lid) =
      some (getKey s.tasks lid) :=
  ⟨rfl, rfl, rfl, rfl, rfl, rfl, rfl, rfl, rfl, rfl, rfl⟩

/-- C3: `UPDATE_TASK` (ReplaceTaskField) and `DELETE_TASK` (RemoveTask)
against a list id with no `tasks[listId]` slice fault at run time (`none`)
instead of silently creating a slice; once `FETCH_TASKS` (ReplaceTasks) has
established the slice, the same commands succeed. -/
theorem C3_absent_slice_faults (s : AppState) (lid tid : String) (task : Task)
    (ts : List Task) (h : getKey s.tasks lid = none) :
    reducer s (.UPDATE_TASK lid tid task) = none ∧
    reducer s (.DELETE_TASK lid tid) = none ∧
    ∀ s1, reducer s (.FETCH_TASKS lid ts) = some s1 →
      (reducer s1 (.UPDATE_TASK lid tid task)).isSome = true ∧
      (reducer s1 (.DELETE_TASK lid tid)).isSome = true := by
  refine ⟨by simp only [reducer, h], by simp only [reducer, h], ?_⟩
  intro s1 h1
  simp only [reducer, Option.some.injEq] at h1
  subst h1
  constructor <;> simp only [reducer, getKey_setKey_self, Option.isSome_some]

/-- C3 witness: with the empty initial state, `UPDATE_TASK`/`DELETE_TASK` on
list `L1` fault, and succeed after `FETCH_TASKS` establishes the slice. -/
theorem C3_absent_slice_faults_witness :
    getKey initialState.tasks "L1" = none ∧
    (reducer initialState (.UPDATE_TASK "L1" "T1" (sampleTask "T1" TaskStatus.OPEN)) = none ∧
      reducer initialState (.DELETE_TASK "L1" "T1") = none ∧
      ∀ s1, reducer initialState (.FETCH_TASKS "L1" [sampleTask "T1" TaskStatus.OPEN]) = some s1 →
        (reducer s1 (.UPDATE_TASK "L1" "T1" (sampleTask "T1" TaskStatus.OPEN))).isSome = true ∧
        (reducer s1 (.DELETE_TASK "L1" "T1")).isSome = true) :=
  ⟨rfl, C3_absent_slice_faults initialState "L1" "T1" (sampleTask "T1" TaskStatus.OPEN)
    [sampleTask "T1" TaskStatus.OPEN] rfl⟩

/-- C6: `DELETE_TASKLIST` (RemoveTaskList) leaves the whole `tasks` mapping
unchanged — it does not cascade-remove `tasks[id]`, so a previously fetched
slice for the deleted list remains cached. -/
theorem C6_delete_tasklist_keeps_tasks (s : AppState) (id : String) (s1 : AppState)
    (h : reducer s (.DELETE_TASKLIST id) = some s1) :
    s1.tasks = s.tasks ∧ getKey s1.tasks id = getKey s.tasks id := by
  simp only [reducer, Option.some.injEq] at h
  subst h
  exact ⟨rfl, rfl⟩

/-- C6 witness: deleting list `L1` keeps its cached one-task slice. -/
theorem C6_delete_tasklist_keeps_tasks_witness :
    reducer stateL1T1 (.DELETE_TASKLIST "L1") = some stateSliceT1 ∧
    (stateSliceT1.tasks = stateL1T1.tasks ∧
      getKey stateSliceT1.tasks "L1" = getKey stateL1T1.tasks "L1") :=
  ⟨by decide, C6_delete_tasklist_keeps_tasks stateL1T1 "L1" stateSliceT1 (by decide)⟩

/-- C7: `DELETE_TASKLIST` (RemoveTaskList) removes from `taskLists` exactly
the entries whose id matches, keeping every other entry unchanged and in its
original relative order (the remaining list is a sublist of the original). -/
theorem C7_delete_tasklist_exact (s : AppState) (id : String) (s1 : AppState)
    (h : reducer s (.DELETE_TASKLIST id) = some s1) :
    (∀ wl ∈ s1.taskLists, wl.id ≠ id) ∧
    s1.taskLists.Sublist s.taskLists ∧
    (∀ wl ∈ s.taskLists, wl.id ≠ id → wl ∈ s1.taskLists) := by
  simp only [reducer, Option.some.injEq] at h
  subst h
  refine ⟨?_, List.filter_sublist _, ?_⟩
  · intro wl hwl
    have := List.of_mem_filter hwl
    simpa using this
  · intro wl hwl hne
    exact List.mem_filter.mpr ⟨hwl, by simpa using hne⟩

/-- C7 witness: deleting `L1` from two lists keeps exactly the other one. -/
theorem C7_delete_tasklist_exact_witness :
    (∀ wl ∈ stateOnlyL2.taskLists, wl.id ≠ "L1") ∧
    stateOnlyL2.taskLists.Sublist stateTwoLists.taskLists ∧
    (∀ wl ∈ stateTwoLists.taskLists, wl.id ≠ "L1" → wl ∈ stateOnlyL2.taskLists) :=
  C7_delete_tasklist_exact stateTwoLists "L1" stateOnlyL2 (by decide)

/-- C8: applying `FETCH_TASKLISTS` (ReplaceTaskLists) with the same payload
twice in a row yields exactly the state of applying it once. -/
theorem C8_fetch_tasklists_idempotent (s : AppState) (x : List TaskList) :
    (reducer s (.FETCH_TASKLISTS x)).bind (fun s1 => reducer s1 (.FETCH_TASKLISTS x)) =
      reducer s (.FETCH_TASKLISTS x) := rfl

/-- C9: `UPDATE_TASKLIST` (ReplaceTaskListField) whose payload id matches no
entry returns the state unchanged — no fault and no append — unlike the
task-level `UPDATE_TASK` (ReplaceTaskField), which faults when its slice
precondition is violated. -/
theorem C9_update_tasklist_no_match_noop (s : AppState) (wl : TaskList)
    (h : ∀ x ∈ s.taskLists, x.id ≠ wl.id) :
    reducer s (.UPDATE_TASKLIST wl) = some s ∧
    (∀ lid tid task, getKey s.tasks lid = none →
      reducer s (.UPDATE_TASK lid tid task) = none) := by
  constructor
  · have hmap : s.taskLists.map (fun x => if x.id = wl.id then wl else x) = s.taskLists := by
      have h2 : ∀ x ∈ s.taskLists, (if x.id = wl.id then wl else x) = x :=
        fun x hx => if_neg (h x hx)
      rw [List.map_congr_left h2]
      simp
    simp only [reducer, hmap]
  · intro lid tid task hnone
    simp only [reducer, hnone]

/-- C9 witness: updating `L9` in a state whose only list is `L1` is a no-op;
`UPDATE_TASK` on an absent slice faults. -/
theorem C9_update_tasklist_no_match_noop_witness :
    (∀ x ∈ stateOnlyL1.taskLists, x.id ≠ ghostList.id) ∧
    (reducer stateOnlyL1 (.UPDATE_TASKLIST ghostList) = some stateOnlyL1 ∧
    (∀ lid tid task, getKey stateOnlyL1.tasks lid = none →
      reducer stateOnlyL1 (.UPDATE_TASK lid tid task) = none)) :=
  ⟨by decide, C9_update_tasklist_no_match_noop stateOnlyL1 ghostList (by decide)⟩

/-- C10: no non-faulting command ever deletes a key of the `tasks` mapping:
every list id with a cached slice before a command still has one afterwards
(`DELETE_TASK` at most leaves an empty sequence under the existing key). -/
theorem C10_tasks_keys_preserved (s : AppState) (a : Action) (s1 : AppState)
    (h : reducer s a = some s1) (k : String)
    (hk : (getKey s.tasks k).isSome = true) :
    (getKey s1.tasks k).isSome = true := by
  rcases reducer_tasks_shape s a s1 h with heq | ⟨k2, v, heq⟩
  · rw [heq]
    exact hk
  · rw [heq]
    exact getKey_setKey_isSome s.tasks k2 k v hk

/-- C10 witness: a `DELETE_TASK` removing the only task of `L1` keeps the key
`L1` in the mapping (with an empty slice). -/
theorem C10_tasks_keys_preserved_witness :
    reducer stateSliceT1 (.DELETE_TASK "L1" "T1") = some stateSliceEmpty ∧
    (getKey stateSliceT1.tasks "L1").isSome = true ∧
    (getKey stateSliceEmpty.tasks "L1").isSome = true :=
  ⟨by decide, by decide,
    C10_tasks_keys_preserved stateSliceT1 (.DELETE_TASK "L1" "T1") stateSliceEmpty
      (by decide) "L1" (by decide)⟩

/-- C2 as stated is false: starting from the initial state, two `CREATE_TASK`
(AppendTask) commands carrying the same task id leave `tasks[L1]` with two
entries for id `T1`, so the slice does not contain exactly one entry per
distinct task id. -/
theorem C2_counterexample :
    applyAll initialState
        [Action.CREATE_TASK "L1" (sampleTask "T1" TaskStatus.OPEN),
         Action.CREATE_TASK "L1" (sampleTask "T1" TaskStatus.OPEN)] = some stateDupT1 ∧
    slice stateDupT1 "L1" = [sampleTask "T1" TaskStatus.OPEN, sampleTask "T1" TaskStatus.OPEN] ∧
    ¬ ((slice stateDupT1 "L1").map Task.id).Nodup :=
  ⟨by decide, by decide, by decide⟩

/-- C2 (amended): for every starting state whose `tasks[listId]` slice has
pairwise-distinct task ids and every disciplined sequence of ReplaceTasks /
AppendTask / UpsertTask / RemoveTask commands on that list id (ReplaceTasks
payload ids pairwise distinct, AppendTask payload id fresh for the current
slice, RemoveTask only on a present slice), the sequence applies without
fault, the resulting `tasks[listId]` contains exactly one entry per distinct
task id, and the entry for each id equals what the last command referencing
that id determined (ids never referenced keep their original entry). -/
theorem C2_amended_slice_characterization (s : AppState) (lid : String)
    (cmds : List TaskCmd) (hg : goodSeq s lid cmds = true)
    (hn : ((slice s lid).map Task.id).Nodup) :
    ∃ s', applyAll s (cmds.map (TaskCmd.toAction lid)) = some s' ∧
      ((slice s' lid).map Task.id).Nodup ∧
      ∀ tid, findById (slice s' lid) tid =
        (lastRef cmds tid).getD (findById (slice s lid) tid) := by
  obtain ⟨s', h1, h2, h3⟩ := goodSeq_sound cmds s lid hg
  exact ⟨s', h1, h3 hn, h2⟩

/-- C2 witness: the disciplined sample sequence applied to the initial state. -/
theorem C2_amended_slice_characterization_witness :
    goodSeq initialState "L1" c2SampleCmds = true ∧
    ((slice initialState "L1").map Task.id).Nodup ∧
    (∃ s', applyAll initialState (c2SampleCmds.map (TaskCmd.toAction "L1")) = some s' ∧
      ((slice s' "L1").map Task.id).Nodup ∧
      ∀ tid, findById (slice s' "L1") tid =
        (lastRef c2SampleCmds tid).getD (findById (slice initialState "L1") tid)) :=
  ⟨by decide, by decide,
    C2_amended_slice_characterization initialState "L1" c2SampleCmds (by decide) (by decide)⟩

/-- C4: completion percentage equals closed count over total count times 100,
is 0 on an empty known slice, 100 when every task is closed, invariant under
permutation of the slice, and equals 50 after the scenario's `FETCH_TASKS`
(ReplaceTasks) of one open and one closed task. -/
theorem C4_completion_percentage (lid : String) (s s2 : AppState) (ts ts2 : List Task) :
    (lid ≠ "" → getKey s.tasks lid = some ts →
      completionPercentage (some lid) s =
        ((ts.filter (fun t => t.status = TaskStatus.CLOSED)).length : ℚ) /
          (ts.length : ℚ) * 100) ∧
    (getKey s.tasks lid = some [] → completionPercentage (some lid) s = 0) ∧
    (lid ≠ "" → getKey s.tasks lid = some ts → ts ≠ [] →
      (∀ t ∈ ts, t.status = TaskStatus.CLOSED) → completionPercentage (some lid) s = 100) ∧
    (getKey s.tasks lid = some ts → getKey s2.tasks lid = some ts2 → ts.Perm ts2 →
      completionPercentage (some lid) s = completionPercentage (some lid) s2) ∧
    (∀ s', reducer stateOnlyL1 (.FETCH_TASKS "L1" scenarioTasks) = some s' →
      completionPercentage (some "L1") s' = 50) := by
  refine ⟨?_, ?_, ?_, ?_, ?_⟩
  · intro hlid hts
    by_cases hnil : ts = []
    · subst hnil
      simp [completionPercentage, hts, hlid]
    · have hlen : 0 < ts.length := List.length_pos.mpr hnil
      simp [completionPercentage, hts, hlid, hlen]
  · intro hts
    by_cases hlid : lid = ""
    · simp [completionPercentage, hlid]
    · simp [completionPercentage, hts, hlid]
  · intro hlid hts hnil hall
    have hfilter : ts.filter (fun t => t.status = TaskStatus.CLOSED) = ts :=
      List.filter_eq_self.mpr (fun t ht => by simp [hall t ht])
    have hlen : 0 < ts.length := List.length_pos.mpr hnil
    have hne : (ts.length : ℚ) ≠ 0 := by
      exact_mod_cast Nat.pos_iff_ne_zero.mp hlen
    simp only [completionPercentage, if_neg hlid, hts, hfilter, if_pos hlen, gt_iff_lt]
    rw [div_self hne]
    norm_num
  · intro hts hts2 hperm
    by_cases hlid : lid = ""
    · simp [completionPercentage, hlid]
    · have hlen := hperm.length_eq
      have hflen : (ts.filter (fun t => t.status = TaskStatus.CLOSED)).length =
          (ts2.filter (fun t => t.status = TaskStatus.CLOSED)).length :=
        (hperm.filter _).length_eq
      simp [completionPercentage, hts, hts2, hlid, hlen, hflen]
  · intro s' h
    simp only [reducer, Option.some.injEq] at h
    subst h
    simp [completionPercentage, getKey_setKey_self, scenarioTasks, sampleTask]
    norm_num

/-- C4 witness: the scenario slice gives the formula and 50, an empty slice
gives 0, an all-closed slice gives 100, and the reordered scenario slice
gives the same percentage. -/
theorem C4_completion_percentage_witness :
    (completionPercentage (some "L1") stateScenario =
      ((scenarioTasks.filter (fun t => t.status = TaskStatus.CLOSED)).length : ℚ) /
        (scenarioTasks.length : ℚ) * 100) ∧
    completionPercentage (some "L1") stateSliceEmpty = 0 ∧
    completionPercentage (some "L1") stateL1T1Closed = 100 ∧
    completionPercentage (some "L1") stateScenario =
      completionPercentage (some "L1") stateScenarioSwapped ∧
    (∀ s', reducer stateOnlyL1 (.FETCH_TASKS "L1" scenarioTasks) = some s' →
      completionPercentage (some "L1") s' = 50) :=
  ⟨(C4_completion_percentage "L1" stateScenario stateScenario scenarioTasks scenarioTasks).1
      (by decide) (by decide),
    (C4_completion_percentage "L1" stateSliceEmpty stateSliceEmpty [] []).2.1 (by decide),
    (C4_completion_percentage "L1" stateL1T1Closed stateL1T1Closed
        [sampleTask "T1" TaskStatus.CLOSED] []).2.2.1
      (by decide) (by decide) (by decide) (by decide),
    (C4_completion_percentage "L1" stateScenario stateScenarioSwapped
        scenarioTasks scenarioTasksSwapped).2.2.2.1 (by decide) (by decide)
      (List.Perm.swap (sampleTask "T2" TaskStatus.CLOSED) (sampleTask "T1" TaskStatus.OPEN) []),
    (C4_completion_percentage "L1" stateScenario stateScenario
        scenarioTasks scenarioTasks).2.2.2.2⟩

/-- C5 as stated is false: toggling the open task `T1` dispatches the
`UPDATE_TASK` (ReplaceTaskField) command with the fully-replaced task object,
not the `GET_TASK` (UpsertTask) command. -/
theorem C5_counterexample :
    toggleStatus (some "L1") (sampleTask "T1" TaskStatus.OPEN) =
      some (Action.UPDATE_TASK "L1" "T1" (sampleTask "T1" TaskStatus.CLOSED)) ∧
    isUpsertTaskAction (toggleStatus (some "L1") (sampleTask "T1" TaskStatus.OPEN)) = false :=
  ⟨by decide, by decide⟩

/-- C5 (amended): toggling a task from OPEN to CLOSED applies a
ReplaceTaskField (`UPDATE_TASK`) command whose payload is the fully-replaced
task object with status CLOSED, and with that task as the list's only task
the resulting completion percentage is 100. -/
theorem C5_amended_toggle_closes (lid : String) (t : Task) (s s1 : AppState)
    (hlid : lid ≠ "") (hopen : t.status = TaskStatus.OPEN)
    (hslice : getKey s.tasks lid = some [t]) :
    toggleStatus (some lid) t =
      some (Action.UPDATE_TASK lid t.id { t with status := TaskStatus.CLOSED }) ∧
    (reducer s (Action.UPDATE_TASK lid t.id { t with status := TaskStatus.CLOSED }) = some s1 →
      completionPercentage (some lid) s1 = 100) := by
  constructor
  · simp [toggleStatus, hlid, hopen]
  · intro h
    simp only [reducer, hslice, Option.some.injEq] at h
    subst h
    simp [completionPercentage, getKey_setKey_self, hlid]

/-- C5 witness: toggling the open sample task `T1` of `L1`. -/
theorem C5_amended_toggle_closes_witness :
    (toggleStatus (some "L1") (sampleTask "T1" TaskStatus.OPEN) =
      some (Action.UPDATE_TASK "L1" (sampleTask "T1" TaskStatus.OPEN).id
        { sampleTask "T1" TaskStatus.OPEN with status := TaskStatus.CLOSED })) ∧
    (reducer stateL1T1 (Action.UPDATE_TASK "L1" (sampleTask "T1" TaskStatus.OPEN).id
        { sampleTask "T1" TaskStatus.OPEN with status := TaskStatus.CLOSED }) =
          some stateL1T1Closed →
      completionPercentage (some "L1") stateL1T1Closed = 100) :=
  C5_amended_toggle_closes "L1" (sampleTask "T1" TaskStatus.OPEN) stateL1T1 stateL1T1Closed
    (by decide) (by decide) (by decide)

end TaskTracker
